import Mathlib

/-!
Verification of the Knotify pusher module (`knotify/pusher.py`).

Python strings are modelled as their UTF-8 byte sequences (`List Nat`,
each element `< 256`): string equality coincides with byte-list equality,
and `urllib.parse`'s percent-encoding operates on exactly these bytes.
Exceptions are modelled with `Except`; the HTTP transport is opaque, so a
`_push` method is modelled by the request it hands to the transport.
-/

namespace Knotify

/-- A Python string, as its UTF-8 byte sequence. -/
abbrev PyStr := List Nat

/-- Embed an ASCII Lean string literal as a `PyStr`. -/
def str (s : String) : PyStr := s.data.map Char.toNat

/-- ASCII uppercase letter. -/
def isUpperB (b : Nat) : Bool := 65 ≤ b && b ≤ 90

/-- ASCII lowercase letter. -/
def isLowerB (b : Nat) : Bool := 97 ≤ b && b ≤ 122

/-- ASCII letter. -/
def isAlphaB (b : Nat) : Bool := isUpperB b || isLowerB b

/-- ASCII digit. -/
def isDigitB (b : Nat) : Bool := 48 ≤ b && b ≤ 57

/-- `str.lower()` on one byte (ASCII range; multi-byte UTF-8 left as-is). -/
def lowerByte (b : Nat) : Nat := if isUpperB b then b + 32 else b

/-- `str.lower()`. -/
def pyLower (s : PyStr) : PyStr := s.map lowerByte

/-- Bytes `urllib.parse.quote_plus` leaves unescaped: ALPHA / DIGIT / `_.-~`. -/
def isSafeB (b : Nat) : Bool := isAlphaB b || isDigitB b || b = 95 || b = 46 || b = 45 || b = 126

/-- Uppercase hex digit for a value `< 16` (as in `urllib.parse.quote`). -/
def hexDigitUpper (n : Nat) : Nat := if n < 10 then 48 + n else 55 + n

/-- Is the byte an ASCII hex digit (`0-9`, `A-F`, `a-f`)? -/
def isHexB (b : Nat) : Bool :=
  isDigitB b || (65 ≤ b && b ≤ 70) || (97 ≤ b && b ≤ 102)

/-- Value of a hex-digit byte. -/
def hexVal (b : Nat) : Nat :=
  if isDigitB b then b - 48 else if 65 ≤ b && b ≤ 70 then b - 55 else b - 87

/-- `urllib.parse.quote_plus` on a single byte: space becomes `+`, safe bytes
pass through, everything else becomes `%XX` with uppercase hex. -/
def quotePlusByte (b : Nat) : PyStr :=
  if b = 32 then [43]
  else if isSafeB b then [b]
  else [37, hexDigitUpper (b / 16), hexDigitUpper (b % 16)]

/-- `urllib.parse.quote_plus`. -/
def quote_plus (s : PyStr) : PyStr := (s.map quotePlusByte).flatten

/-- `str.replace("+", " ")`, the first half of `unquote_plus`. -/
def replacePlus (s : PyStr) : PyStr := s.map (fun b => if b = 43 then 32 else b)

/-- Python `str.split(c)`: the list of separator-free pieces (never empty). -/
def splitSep (c : Nat) : PyStr → List PyStr
  | [] => [[]]
  | b :: rest =>
      if b = c then [] :: splitSep c rest
      else
        match splitSep c rest with
        | [] => [[b]]
        | h :: t => (b :: h) :: t

/-- One piece after a `%` in `urllib.parse.unquote`: two leading hex digits
decode to a byte, anything else leaves the `%` sequence untouched. -/
def unquoteItem (item : PyStr) : PyStr :=
  match item with
  | a :: b :: rest =>
      if isHexB a && isHexB b then (hexVal a * 16 + hexVal b) :: rest
      else 37 :: item
  | _ => 37 :: item

/-- `urllib.parse.unquote` at the byte level, mirroring CPython: split on
`%` and decode the head of each subsequent piece. -/
def unquote (s : PyStr) : PyStr :=
  match splitSep 37 s with
  | [] => []
  | first :: items => first ++ (items.map unquoteItem).flatten

/-- `urllib.parse.unquote_plus` at the byte level: `+` becomes space, then
percent sequences are decoded. -/
def unquote_plus (s : PyStr) : PyStr := unquote (replacePlus s)

/-- Split at the first occurrence of byte `c`: `some (before, after)` if `c`
occurs (the separator excluded), `none` otherwise. Models `str.find` /
`str.split(c, 1)`. -/
def splitFirst? (c : Nat) : PyStr → Option (PyStr × PyStr)
  | [] => none
  | b :: rest =>
      if b = c then some ([], rest)
      else (splitFirst? c rest).map (fun p => (b :: p.1, p.2))

/-- Result of `urllib.parse.urlparse` (the fields the module uses). -/
structure ParseResult where
  scheme : PyStr
  netloc : PyStr
  path : PyStr
  query : PyStr
  fragment : PyStr
deriving DecidableEq, Repr

/-- Bytes allowed in a URL scheme (`urllib.parse.scheme_chars`). -/
def isSchemeChar (b : Nat) : Bool := isAlphaB b || isDigitB b || b = 43 || b = 45 || b = 46

/-- Byte ending the netloc segment: `/`, `?` or `#`. -/
def isNetlocEnd (b : Nat) : Bool := b = 47 || b = 63 || b = 35

/-- Scheme step of `urllib.parse.urlparse`: split at the first `:` when the
prefix starts with a letter and consists of scheme characters; the scheme is
lowercased. Returns `(scheme, rest)`. -/
def schemeSplit (url : PyStr) : PyStr × PyStr :=
  match splitFirst? 58 url with
  | some (b :: bs, after) =>
      if isAlphaB b && (b :: bs).all isSchemeChar then (pyLower (b :: bs), after)
      else ([], url)
  | _ => ([], url)

/-- Netloc step: after a leading `//`, the netloc runs up to `/`, `?` or
`#`. Returns `(netloc, rest)`. -/
def netlocSplit (rest : PyStr) : PyStr × PyStr :=
  if rest.take 2 = [47, 47] then
    ((rest.drop 2).takeWhile (fun b => !isNetlocEnd b),
     (rest.drop 2).dropWhile (fun b => !isNetlocEnd b))
  else ([], rest)

/-- Fragment step: split at the first `#`. -/
def fragSplit (s : PyStr) : PyStr × PyStr :=
  match splitFirst? 35 s with
  | some (a, b) => (a, b)
  | none => (s, [])

/-- Query step: split at the first `?`. -/
def querySplit (s : PyStr) : PyStr × PyStr :=
  match splitFirst? 63 s with
  | some (a, b) => (a, b)
  | none => (s, [])

/-- `urllib.parse.urlparse`: scheme, then netloc, then fragment, then
query. -/
def urlparse (url : PyStr) : ParseResult :=
  ⟨(schemeSplit url).1,
   (netlocSplit (schemeSplit url).2).1,
   (querySplit (fragSplit (netlocSplit (schemeSplit url).2).2).1).1,
   (querySplit (fragSplit (netlocSplit (schemeSplit url).2).2).1).2,
   (fragSplit (netlocSplit (schemeSplit url).2).2).2⟩

/-- One field of a query string, as `urllib.parse.parse_qsl` treats it with
the default `keep_blank_values=False`: empty fields, fields without `=` and
fields with an empty value are skipped; name and value are unquoted with
`+` converted to space. -/
def fieldParse (f : PyStr) : Option (PyStr × PyStr) :=
  if f = [] then none
  else
    match splitFirst? 61 f with
    | none => none
    | some (n, v) => if v = [] then none else some (unquote_plus n, unquote_plus v)

/-- `urllib.parse.parse_qsl` with default arguments: split on `&`, parse each
field, skipping blanks. -/
def parse_qsl (qs : PyStr) : List (PyStr × PyStr) :=
  (splitSep 38 qs).filterMap fieldParse

/-- A Python dict with `PyStr` keys, as an insertion-ordered association
list (a real dict's keys are unique). -/
abbrev PyDict (α : Type) := List (PyStr × α)

/-- `d[k]` / `d.get(k)`: lookup, first match. -/
def dictGet {α : Type} : PyDict α → PyStr → Option α
  | [], _ => none
  | p :: rest, k => if p.1 = k then some p.2 else dictGet rest k

/-- `k in d`. -/
def hasKey {α : Type} (d : PyDict α) (k : PyStr) : Bool :=
  (dictGet d k).isSome

/-- `d[k] = v`: overwrite in place if the key is present, else append. -/
def dictSet {α : Type} : PyDict α → PyStr → α → PyDict α
  | [], k, v => [(k, v)]
  | p :: rest, k, v => if p.1 = k then (k, v) :: rest else p :: dictSet rest k v

/-- `d.update(e)` on Python dicts. -/
def dictUpdate {α : Type} (d e : PyDict α) : PyDict α :=
  e.foldl (fun acc p => dictSet acc p.1 p.2) d

/-- `dict(pairs)`: later occurrences of a key overwrite earlier ones. -/
def pyDict {α : Type} (pairs : PyDict α) : PyDict α :=
  dictUpdate [] pairs

/-- `d.setdefault(k, v)`: insert only when the key is absent. -/
def setdefault {α : Type} : PyDict α → PyStr → α → PyDict α
  | [], k, v => [(k, v)]
  | p :: rest, k, v => if p.1 = k then p :: rest else p :: setdefault rest k v

/-- `urllib.parse.urlencode` (via `quote_plus`): `k1=v1&k2=v2&...`. -/
def urlencode : List (PyStr × PyStr) → PyStr
  | [] => []
  | [(k, v)] => quote_plus k ++ 61 :: quote_plus v
  | (k, v) :: rest => quote_plus k ++ 61 :: quote_plus v ++ 38 :: urlencode rest

/-- A raised exception from inside a backend constructor (Python raises
`TypeError` when keyword arguments do not match the signature). -/
inductive PyError
  | unexpectedKeyword (kw : PyStr)
  | missingArgument (arg : PyStr)
deriving DecidableEq, Repr

/-- A raised `KnotifyException`, one constructor per raise site of the module
(plus the spec's ConfigurationError, raised by the body builder in
`knotify/base_pusher.py`, which is not under `src/`). -/
inductive KnotifyError
  | invalidScheme
  | invalidClassName (netloc : PyStr)
  | wrapped (e : PyError)
  | invalidPusherType (clsName : PyStr)
  | configurationError (field : PyStr)
deriving DecidableEq, Repr

/-- A Python class object, as far as `register_pusher`/`get_pusher` inspect
one: the four classes of the module, or any other class (`external`), which
carries its `__name__` and whether it subclasses `BasePusher`. -/
inductive PClass
  | webhook
  | telegram
  | wechat
  | wirepusher
  | external (name : PyStr) (basePusher : Bool)
deriving DecidableEq, Repr

/-- The class's `__name__`. -/
def PClass.clsName : PClass → PyStr
  | .webhook => str "Webhook"
  | .telegram => str "Telegram"
  | .wechat => str "Wechat"
  | .wirepusher => str "WirePusher"
  | .external n _ => n

/-- Does the class subclass `BasePusher` (so its instances satisfy
`isinstance(x, BasePusher)`)? -/
def PClass.isBasePusher : PClass → Bool
  | .external _ b => b
  | _ => true

/-- Modelled from the spec: `get_cls_name` lives in `knotify/utils.py`, which
is not under `src/`; per the spec, `register` "normalizes to a lowercase type
name", and the module's own registry bootstrap uses `cls.__name__.lower()`. -/
def get_cls_name (c : PClass) : PyStr := pyLower c.clsName

/-- A pusher instance. The four classes of the module store their identity
field and the `show_message` flag; an instance of an externally registered
class is opaque, recorded with its class name and constructor arguments. -/
inductive Pusher
  | webhook (url : PyStr) (show_message : Bool)
  | telegram (token : PyStr) (show_message : Bool)
  | wechat (sckey : PyStr) (show_message : Bool)
  | wirepusher (pid : PyStr) (show_message : Bool)
  | extInst (clsName : PyStr) (kwargs : List (PyStr × PyStr))
deriving DecidableEq, Repr

/-- Truthiness of a query-string value bound to `show_message` (Python: a
string is truthy iff nonempty). -/
def truthy (s : PyStr) : Bool := s ≠ []

/-- `show_message` as bound from string keyword arguments: the given string's
truthiness if present, else the default `True`. -/
def showOf (d : List (PyStr × PyStr)) : Bool :=
  match dictGet d (str "show_message") with
  | some v => truthy v
  | none => true

/-- `cls(**params)` for a class taking one required parameter `field` plus
`show_message=True`: an unknown keyword raises, a missing required argument
raises, otherwise the instance is built. -/
def initOneField (field : PyStr) (mk : PyStr → Bool → Pusher)
    (params : List (PyStr × PyStr)) : Except PyError Pusher :=
  match params.find? (fun p => !(p.1 = field || p.1 = str "show_message")) with
  | some p => .error (.unexpectedKeyword p.1)
  | none =>
      match dictGet params field with
      | none => .error (.missingArgument field)
      | some v => .ok (mk v (showOf params))

/-- `cls(**params)`: dispatch to the class's `__init__`. An externally
registered class has its constructor outside this module; modelled from the
spec ("constructor: callable producing a Notifier") as succeeding and
recording its arguments. -/
def PClass.init : PClass → List (PyStr × PyStr) → Except PyError Pusher
  | .webhook => initOneField (str "url") .webhook
  | .telegram => initOneField (str "token") .telegram
  | .wechat => initOneField (str "sckey") .wechat
  | .wirepusher => initOneField (str "pid") .wirepusher
  | .external n _ => fun params => .ok (.extInst n params)

/-- The registry `all_pushers`: a Python dict from lowercase class name to
class. -/
abbrev Registry := PyDict PClass

/-- The module-level initial registry:
`{cls.__name__.lower(): cls for cls in BasePusher.__subclasses__()}` over the
four classes defined in the module. -/
def initialPushers : Registry :=
  [(str "webhook", .webhook), (str "telegram", .telegram),
   (str "wechat", .wechat), (str "wirepusher", .wirepusher)]

/-- `get_pusher(uri)`, with the registry state passed explicitly: parse the
URI, check the scheme, look up the lowercased netloc, parse the query string,
construct the class with the parameters, wrapping any constructor exception
in a `KnotifyException`. -/
def get_pusher (all_pushers : Registry) (uri : PyStr) : Except KnotifyError Pusher :=
  if (urlparse uri).scheme ≠ str "knotify" then .error .invalidScheme
  else
    match dictGet all_pushers (pyLower (urlparse uri).netloc) with
    | none => .error (.invalidClassName (urlparse uri).netloc)
    | some cls =>
        match cls.init (pyDict (parse_qsl (urlparse uri).query)) with
        | .ok p => .ok p
        | .error e => .error (.wrapped e)

/-- The argument handed to `register_pusher`: a class object, or an instance
of some class (every non-class Python object is an instance of its class). -/
inductive PyObject
  | typeObj (c : PClass)
  | instanceObj (c : PClass)
deriving DecidableEq, Repr

/-- `register_pusher(pusher)`, with the registry state passed explicitly:
a class is registered under its lowercase name (no conformance check); an
instance has its class registered if it is a `BasePusher`; anything else
raises `KnotifyException`. -/
def register_pusher (pusher : PyObject) (all_pushers : Registry) :
    Except KnotifyError Registry :=
  match pusher with
  | .typeObj c => .ok (dictSet all_pushers (get_cls_name c) c)
  | .instanceObj c =>
      if c.isBasePusher then .ok (dictSet all_pushers (get_cls_name c) c)
      else .error (.invalidPusherType c.clsName)

/-- An HTTP request as handed to the opaque transport (`requests` session):
method, URL, query parameters (`params=`) and JSON body (`json=`). -/
structure HttpRequest where
  isPost : Bool
  url : PyStr
  params : List (PyStr × PyStr)
  jsonBody : List (PyStr × PyStr)
deriving DecidableEq, Repr

/-- `Webhook._push`: `kwargs.setdefault("content", message)` then POST the
kwargs as the JSON body to the configured url. -/
def Webhook.push_ (url : PyStr) (message : PyStr)
    (kwargs : List (PyStr × PyStr)) : HttpRequest :=
  let kwargs := setdefault kwargs (str "content") message
  ⟨true, url, [], kwargs⟩

/-- `Telegram._push`: body `{"text": message, "parse_mode": "Markdown"}`
updated with the kwargs, POSTed to the api template with the token
substituted. -/
def Telegram.push_ (token : PyStr) (message : PyStr)
    (kwargs : List (PyStr × PyStr)) : HttpRequest :=
  let req_body := dictUpdate
    [(str "text", message), (str "parse_mode", str "Markdown")] kwargs
  ⟨true, str "https://tgbot.lbyczf.com/sendMessage/" ++ token, [], req_body⟩

/-- `Wechat._push`: GET the api template with the sckey substituted,
`params=dict(text=message)`. -/
def Wechat.push_ (sckey : PyStr) (message : PyStr) : HttpRequest :=
  ⟨false, str "http://sc.ftqq.com/" ++ sckey ++ str ".send",
   [(str "text", message)], []⟩

/-- The union of the provided fields with the defaults: a default fills in
only where the caller provided nothing. -/
def mergeDefaults (provided defaults : PyDict PyStr) : PyDict PyStr :=
  defaults.foldl (fun acc p => setdefault acc p.1 p.2) provided

/-- Modelled from the spec: `BasePusher._build_body` lives in
`knotify/base_pusher.py`, which is not under `src/`. Per spec §4.3 it merges
the provided fields with the defaults, fails with a ConfigurationError naming
the first mandatory field absent after merging, silently drops fields outside
the allow-list, and returns the assembled body with the dropped field
names. -/
def build_body (allowed : List PyStr) (provided : PyDict PyStr)
    (mandatory : List PyStr) (defaults : PyDict PyStr) :
    Except KnotifyError (PyDict PyStr × List PyStr) :=
  match mandatory.find? (fun m => !hasKey (mergeDefaults provided defaults) m) with
  | some m => .error (.configurationError m)
  | none =>
      .ok ((mergeDefaults provided defaults).filter (fun p => allowed.contains p.1),
           ((mergeDefaults provided defaults).filter
             (fun p => !allowed.contains p.1)).map (fun p => p.1))

/-- `WirePusher._args`. -/
def WirePusher.args : List PyStr :=
  [str "id", str "title", str "message", str "type", str "action",
   str "image_url", str "message_id"]

/-- `WirePusher._mandatory`. -/
def WirePusher.mandatory : List PyStr := [str "id", str "title", str "message"]

/-- `WirePusher._push`: default `id` to the configured pid and `title` to
`"Knotify Message"`, build the body against the allow-list and mandatory
list with `message=message` as a default, and GET the fixed endpoint with
the body as query parameters. -/
def WirePusher.push_ (pid : PyStr) (message : PyStr)
    (kwargs : List (PyStr × PyStr)) : Except KnotifyError HttpRequest :=
  let kwargs := setdefault kwargs (str "id") pid
  let kwargs := setdefault kwargs (str "title") (str "Knotify Message")
  match build_body WirePusher.args kwargs WirePusher.mandatory
      [(str "message", message)] with
  | .error e => .error e
  | .ok (req_body, _) => .ok ⟨false, str "https://wirepusher.com/send", req_body, []⟩

/-- Modelled from the spec: `BasePusher._format_uri` lives in
`knotify/base_pusher.py`, which is not under `src/`. Per the spec the
canonical URI is `scheme://type-name?param=value&...` with the fixed scheme,
the lowercase type name, and the identity fields urlencoded as query
parameters. -/
def format_uri (cls_name : PyStr) (params : List (PyStr × PyStr)) : PyStr :=
  str "knotify://" ++ cls_name ++ 63 :: urlencode params

/-- The `uri` property of each pusher class, each serializing its own
identity field under its constructor parameter's name; for an instance of an
externally registered class, its recorded constructor arguments. -/
def Pusher.uri : Pusher → PyStr
  | .webhook url _ => format_uri (str "webhook") [(str "url", url)]
  | .telegram token _ => format_uri (str "telegram") [(str "token", token)]
  | .wechat sckey _ => format_uri (str "wechat") [(str "sckey", sckey)]
  | .wirepusher pid _ => format_uri (str "wirepusher") [(str "pid", pid)]
  | .extInst n kwargs => format_uri (pyLower n) kwargs

/-- The identity field of a built-in pusher (`url`, `token`, `sckey` or
`pid`). -/
def Pusher.identity : Pusher → PyStr
  | .webhook url _ => url
  | .telegram token _ => token
  | .wechat sckey _ => sckey
  | .wirepusher pid _ => pid
  | .extInst _ _ => []

/-- Construct a built-in pusher of class `c` from its identity field and the
`show_message` flag. -/
def mkPusher (c : PClass) (v : PyStr) (sm : Bool) : Pusher :=
  match c with
  | .webhook => .webhook v sm
  | .telegram => .telegram v sm
  | .wechat => .wechat v sm
  | .wirepusher => .wirepusher v sm
  | .external n _ => .extInst n []

/-! ### Byte-level lemmas about quoting -/

/-- Hex encoding of a nibble roundtrips. -/
theorem hexDigit_roundtrip :
    ∀ n < 16, isHexB (hexDigitUpper n) = true ∧ hexVal (hexDigitUpper n) = n := by
  decide

/-- A quote-safe byte is neither `+` nor `%`. -/
theorem isSafeB_ne (b : Nat) (h : isSafeB b = true) : b ≠ 43 ∧ b ≠ 37 := by
  simp only [isSafeB, isAlphaB, isUpperB, isLowerB, isDigitB, Bool.or_eq_true,
    Bool.and_eq_true, decide_eq_true_eq] at h
  omega

/-- `quotePlusByte` never produces an empty encoding. -/
theorem quotePlusByte_ne_nil (b : Nat) : quotePlusByte b ≠ [] := by
  unfold quotePlusByte
  split
  · simp
  · split <;> simp

set_option maxRecDepth 4096 in
/-- No output byte of `quotePlusByte` is `&` or `#`. -/
theorem quotePlusByte_no_sep :
    ∀ b < 256, ∀ c ∈ quotePlusByte b, c ≠ 38 ∧ c ≠ 35 := by
  decide

/-- A hex-digit byte is neither `+` nor `%`. -/
theorem isHexB_ne (b : Nat) (h : isHexB b = true) : b ≠ 43 ∧ b ≠ 37 := by
  simp only [isHexB, isDigitB, Bool.or_eq_true, Bool.and_eq_true,
    decide_eq_true_eq] at h
  omega

/-- `splitSep` never returns the empty list of pieces. -/
theorem splitSep_ne_nil (c : Nat) (s : PyStr) : splitSep c s ≠ [] := by
  induction s with
  | nil => simp [splitSep]
  | cons b t ih =>
      rw [splitSep]
      split
      · simp
      · cases h : splitSep c t with
        | nil => simp
        | cons f tl => simp [h]

/-- `splitSep` always has a first piece. -/
theorem splitSep_exists (c : Nat) (s : PyStr) :
    ∃ f tl, splitSep c s = f :: tl := by
  cases h : splitSep c s with
  | nil => exact absurd h (splitSep_ne_nil c s)
  | cons f tl => exact ⟨f, tl, rfl⟩

/-- A non-separator byte is prepended to the first piece. -/
theorem splitSep_cons_ne (c b : Nat) (s : PyStr) (f : PyStr) (tl : List PyStr)
    (hb : b ≠ c) (h : splitSep c s = f :: tl) :
    splitSep c (b :: s) = (b :: f) :: tl := by
  rw [splitSep, if_neg hb, h]

/-- A separator-free prefix lands in the first piece. -/
theorem splitSep_append_not_mem (c : Nat) (x t : PyStr) (f : PyStr)
    (tl : List PyStr) (hx : c ∉ x) (h : splitSep c t = f :: tl) :
    splitSep c (x ++ t) = (x ++ f) :: tl := by
  induction x with
  | nil => simpa using h
  | cons b y ih =>
      have hb : b ≠ c := fun hbc => hx (by simp [hbc])
      have hy : c ∉ y := fun hcy => hx (by simp [hcy])
      rw [List.cons_append,
        splitSep_cons_ne c b (y ++ t) (y ++ f) tl hb (ih hy)]
      simp

/-- `unquote` passes a `%`-free prefix through. -/
theorem unquote_append_no_pct (x t : PyStr) (hx : (37 : Nat) ∉ x) :
    unquote (x ++ t) = x ++ unquote t := by
  obtain ⟨f, tl, h⟩ := splitSep_exists 37 t
  rw [unquote, splitSep_append_not_mem 37 x t f tl hx h, unquote, h]
  simp

/-- `unquote` decodes a valid percent sequence and goes on. -/
theorem unquote_pct_hex (h1 h2 : Nat) (t : PyStr)
    (hh1 : isHexB h1 = true) (hh2 : isHexB h2 = true) :
    unquote (37 :: h1 :: h2 :: t) = (hexVal h1 * 16 + hexVal h2) :: unquote t := by
  have h1ne : h1 ≠ 37 := (isHexB_ne h1 hh1).2
  have h2ne : h2 ≠ 37 := (isHexB_ne h2 hh2).2
  obtain ⟨f, tl, h⟩ := splitSep_exists 37 t
  have hs2 : splitSep 37 (h2 :: t) = (h2 :: f) :: tl :=
    splitSep_cons_ne 37 h2 t f tl h2ne h
  have hs1 : splitSep 37 (h1 :: h2 :: t) = (h1 :: h2 :: f) :: tl :=
    splitSep_cons_ne 37 h1 (h2 :: t) (h2 :: f) tl h1ne hs2
  have hs0 : splitSep 37 (37 :: h1 :: h2 :: t) = [] :: (h1 :: h2 :: f) :: tl := by
    rw [splitSep, if_pos rfl, hs1]
  rw [unquote, hs0, unquote, h]
  simp [unquoteItem, hh1, hh2]

/-- Decoding undoes the encoding of one byte, whatever follows. -/
theorem unquote_quotePlusByte (b : Nat) (hb : b < 256) (t : PyStr) :
    unquote (replacePlus (quotePlusByte b) ++ t) = b :: unquote t := by
  by_cases h32 : b = 32
  · subst h32
    have : replacePlus (quotePlusByte 32) = [32] := by decide
    rw [this]
    exact unquote_append_no_pct [32] t (by decide)
  · by_cases hsafe : isSafeB b = true
    · obtain ⟨h43, h37⟩ := isSafeB_ne b hsafe
      have : replacePlus (quotePlusByte b) = [b] := by
        simp [quotePlusByte, h32, hsafe, replacePlus, h43]
      rw [this]
      exact unquote_append_no_pct [b] t (by simp only [List.mem_singleton]; omega)
    · have hdiv : b / 16 < 16 := by omega
      have hmod : b % 16 < 16 := by omega
      obtain ⟨ha1, ha2⟩ := hexDigit_roundtrip _ hdiv
      obtain ⟨hb1, hb2⟩ := hexDigit_roundtrip _ hmod
      have h1ne : hexDigitUpper (b / 16) ≠ 43 := (isHexB_ne _ ha1).1
      have h2ne : hexDigitUpper (b % 16) ≠ 43 := (isHexB_ne _ hb1).1
      have hrp : replacePlus (quotePlusByte b)
          = [37, hexDigitUpper (b / 16), hexDigitUpper (b % 16)] := by
        simp [quotePlusByte, h32, hsafe, replacePlus, h1ne, h2ne]
      rw [hrp, List.cons_append, List.cons_append, List.cons_append,
        List.nil_append, unquote_pct_hex _ _ _ ha1 hb1, ha2, hb2]
      congr 1
      omega

/-- Decoding undoes encoding on byte strings. -/
theorem unquote_quote_plus (s : PyStr) (h : ∀ b ∈ s, b < 256) :
    unquote_plus (quote_plus s) = s := by
  induction s with
  | nil => rfl
  | cons b t ih =>
      have hb : b < 256 := h b (by simp)
      have ht : ∀ x ∈ t, x < 256 := fun x hx => h x (by simp [hx])
      calc unquote_plus (quote_plus (b :: t))
          = unquote (replacePlus (quotePlusByte b) ++ replacePlus (quote_plus t)) := by
            simp [quote_plus, unquote_plus, replacePlus]
        _ = b :: unquote (replacePlus (quote_plus t)) := unquote_quotePlusByte b hb _
        _ = b :: t := by rw [← unquote_plus, ih ht]

/-- The quoted form of a byte string avoids `&` and `#`. -/
theorem quote_plus_no_sep (s : PyStr) (h : ∀ b ∈ s, b < 256) :
    38 ∉ quote_plus s ∧ 35 ∉ quote_plus s := by
  constructor <;>
  · intro hmem
    rw [quote_plus, List.mem_flatten] at hmem
    obtain ⟨l, hl, hcl⟩ := hmem
    rw [List.mem_map] at hl
    obtain ⟨b, hb, rfl⟩ := hl
    have := quotePlusByte_no_sep b (h b hb) _ hcl
    omega

/-- The quoted form of a nonempty byte string is nonempty. -/
theorem quote_plus_ne_nil (s : PyStr) (h : s ≠ []) : quote_plus s ≠ [] := by
  cases s with
  | nil => exact absurd rfl h
  | cons b t =>
      have : quote_plus (b :: t) = quotePlusByte b ++ quote_plus t := by
        simp [quote_plus]
      rw [this]
      simp [quotePlusByte_ne_nil b]

/-! ### Splitting and URI-parsing lemmas -/

/-- `splitFirst?` finds nothing in a separator-free string. -/
theorem splitFirst?_of_not_mem (c : Nat) (s : PyStr) (h : c ∉ s) :
    splitFirst? c s = none := by
  induction s with
  | nil => rfl
  | cons b t ih =>
      have hb : b ≠ c := fun hbc => h (by simp [hbc])
      rw [splitFirst?, if_neg hb, ih (fun hct => h (by simp [hct]))]
      rfl

/-- `splitFirst?` splits at the first separator. -/
theorem splitFirst?_append (c : Nat) (xs ys : PyStr) (h : c ∉ xs) :
    splitFirst? c (xs ++ c :: ys) = some (xs, ys) := by
  induction xs with
  | nil => simp [splitFirst?]
  | cons b t ih =>
      have hb : b ≠ c := fun hbc => h (by simp [hbc])
      rw [List.cons_append, splitFirst?, if_neg hb,
        ih (fun hct => h (by simp [hct]))]
      rfl

/-- A satisfied prefix passes through `takeWhile`. -/
theorem takeWhile_append_all {α : Type} (p : α → Bool) (xs ys : List α)
    (h : ∀ x ∈ xs, p x = true) :
    (xs ++ ys).takeWhile p = xs ++ ys.takeWhile p := by
  induction xs with
  | nil => simp
  | cons b t ih =>
      rw [List.cons_append, List.takeWhile_cons, h b (by simp),
        ih (fun x hx => h x (by simp [hx]))]
      rfl

/-- A satisfied prefix is dropped by `dropWhile`. -/
theorem dropWhile_append_all {α : Type} (p : α → Bool) (xs ys : List α)
    (h : ∀ x ∈ xs, p x = true) :
    (xs ++ ys).dropWhile p = ys.dropWhile p := by
  induction xs with
  | nil => simp
  | cons b t ih =>
      rw [List.cons_append, List.dropWhile_cons, h b (by simp)]
      simp only [if_true]
      exact ih (fun x hx => h x (by simp [hx]))

/-- The scheme step on a canonical URI yields the fixed scheme. -/
theorem schemeSplit_knotify (r : PyStr) :
    schemeSplit (str "knotify://" ++ r) = (str "knotify", 47 :: 47 :: r) := rfl

/-- The netloc step on `//<name>?<query>` yields the name. -/
theorem netlocSplit_canonical (n q : PyStr)
    (hn : ∀ b ∈ n, isNetlocEnd b = false) :
    netlocSplit (47 :: 47 :: (n ++ 63 :: q)) = (n, 63 :: q) := by
  have hn2 : ∀ b ∈ n, (!isNetlocEnd b) = true := fun b hb => by
    rw [hn b hb]; rfl
  rw [netlocSplit,
    if_pos (show List.take 2 (47 :: 47 :: (n ++ 63 :: q)) = [47, 47] from rfl)]
  simp only [List.drop_succ_cons, List.drop_zero]
  rw [takeWhile_append_all _ n (63 :: q) hn2,
    dropWhile_append_all _ n (63 :: q) hn2]
  rw [List.takeWhile_cons, List.dropWhile_cons]
  norm_num [isNetlocEnd]

/-- The fragment step is the identity on a `#`-free string. -/
theorem fragSplit_no_frag (s : PyStr) (h : (35 : Nat) ∉ s) :
    fragSplit s = (s, []) := by
  rw [fragSplit, splitFirst?_of_not_mem 35 s h]

/-- The query step on a string led by `?`. -/
theorem querySplit_lead (q : PyStr) : querySplit (63 :: q) = ([], q) := rfl

/-- Parsing a URI of the canonical shape `knotify://<name>?<query>`: the
scheme, netloc and query come out verbatim when the name has no reserved
byte and the query has no `#`. -/
theorem urlparse_canonical (n q : PyStr)
    (hn : ∀ b ∈ n, isNetlocEnd b = false) (hq : (35 : Nat) ∉ q) :
    urlparse (str "knotify://" ++ n ++ 63 :: q) =
      ⟨str "knotify", n, [], q, []⟩ := by
  have hq2 : (35 : Nat) ∉ 63 :: q := by
    simp only [List.mem_cons]
    push_neg
    exact ⟨by omega, hq⟩
  rw [urlparse, List.append_assoc, schemeSplit_knotify (n ++ 63 :: q)]
  rw [show ((str "knotify", 47 :: 47 :: (n ++ 63 :: q)) : PyStr × PyStr).2
      = 47 :: 47 :: (n ++ 63 :: q) from rfl]
  rw [netlocSplit_canonical n q hn]
  rw [show ((n, 63 :: q) : PyStr × PyStr).2 = 63 :: q from rfl]
  rw [fragSplit_no_frag _ hq2]
  rw [show ((63 :: q, ([] : PyStr)) : PyStr × PyStr).1 = 63 :: q from rfl]
  rw [querySplit_lead q]

/-- `splitSep` leaves a separator-free string whole. -/
theorem splitSep_of_not_mem (c : Nat) (s : PyStr) (h : c ∉ s) :
    splitSep c s = [s] := by
  induction s with
  | nil => rfl
  | cons b t ih =>
      have hb : b ≠ c := fun hbc => h (by simp [hbc])
      rw [splitSep, if_neg hb, ih (fun hct => h (by simp [hct]))]

/-- A query string of one `key=value` field parses to the unquoted pair. -/
theorem parse_qsl_single (k v : PyStr) (hk38 : (38 : Nat) ∉ k)
    (hk61 : (61 : Nat) ∉ k) (hv38 : (38 : Nat) ∉ v) (hvne : v ≠ []) :
    parse_qsl (k ++ 61 :: v) = [(unquote_plus k, unquote_plus v)] := by
  have hmem : (38 : Nat) ∉ k ++ 61 :: v := by
    simp only [List.mem_append, List.mem_cons]
    push_neg
    exact ⟨hk38, by omega, hv38⟩
  rw [parse_qsl, splitSep_of_not_mem 38 _ hmem]
  have hne : k ++ 61 :: v ≠ [] := by simp
  rw [List.filterMap]
  simp only [fieldParse, if_neg hne, splitFirst?_append 61 k v hk61, if_neg hvne]
  rfl

/-! ### Dict lemmas -/

/-- Lookup after assignment. -/
theorem dictGet_dictSet {α : Type} (d : PyDict α) (k k' : PyStr) (v : α) :
    dictGet (dictSet d k v) k' = if k = k' then some v else dictGet d k' := by
  induction d with
  | nil => rfl
  | cons p rest ih =>
      rw [dictSet]
      by_cases hpk : p.1 = k
      · rw [if_pos hpk, dictGet]
        by_cases hkk : k = k'
        · rw [if_pos hkk, if_pos hkk]
        · rw [if_neg hkk, if_neg hkk, dictGet, if_neg (by rw [hpk]; exact hkk)]
      · rw [if_neg hpk, dictGet, ih]
        by_cases hpk' : p.1 = k'
        · have : ¬k = k' := fun h => hpk (h ▸ hpk')
          rw [if_pos hpk', if_neg this, dictGet, if_pos hpk']
        · rw [if_neg hpk', dictGet, if_neg hpk']

/-- Lookup distributes over append, first wins. -/
theorem dictGet_append {α : Type} (d e : PyDict α) (k : PyStr) :
    dictGet (d ++ e) k = (dictGet d k).or (dictGet e k) := by
  induction d with
  | nil => rfl
  | cons p rest ih =>
      rw [List.cons_append, dictGet, dictGet, ih]
      by_cases hpk : p.1 = k
      · rw [if_pos hpk, if_pos hpk]
        rfl
      · rw [if_neg hpk, if_neg hpk]

/-- A key missing from a dict misses every entry. -/
theorem dictGet_none_iff {α : Type} (d : PyDict α) (k : PyStr) :
    dictGet d k = none ↔ ∀ p ∈ d, p.1 ≠ k := by
  induction d with
  | nil => simp [dictGet]
  | cons p rest ih =>
      rw [dictGet]
      by_cases hpk : p.1 = k
      · simp [hpk]
      · simp only [if_neg hpk, ih, List.mem_cons]
        constructor
        · intro h x hx
          rcases hx with rfl | hx
          · exact hpk
          · exact h x hx
        · intro h x hx
          exact h x (Or.inr hx)

/-- Looking up in the reversed dict misses the same keys. -/
theorem dictGet_reverse_none {α : Type} (d : PyDict α) (k : PyStr)
    (h : dictGet d k = none) : dictGet d.reverse k = none := by
  rw [dictGet_none_iff] at h ⊢
  intro p hp
  exact h p (List.mem_reverse.mp hp)

/-- Lookup after a fold of assignments: the last assignment wins, falling
back to the base dict. -/
theorem dictGet_dictUpdate {α : Type} (pairs d : PyDict α) (k : PyStr) :
    dictGet (dictUpdate d pairs) k =
      (dictGet pairs.reverse k).or (dictGet d k) := by
  induction pairs generalizing d with
  | nil => rfl
  | cons p ps ih =>
      rw [dictUpdate, List.foldl_cons, ← dictUpdate, ih, List.reverse_cons,
        dictGet_append, dictGet_dictSet, Option.or_assoc]
      congr 1
      rw [dictGet, dictGet]
      by_cases hpk : p.1 = k
      · rw [if_pos hpk, if_pos hpk]
        rfl
      · rw [if_neg hpk, if_neg hpk, Option.none_or]

/-- `dict(pairs)` realizes last-occurrence-wins lookup. -/
theorem dictGet_pyDict {α : Type} (pairs : PyDict α) (k : PyStr) :
    dictGet (pyDict pairs) k = dictGet pairs.reverse k := by
  rw [pyDict, dictGet_dictUpdate]
  exact Option.or_none

/-- `setdefault` makes the key present. -/
theorem hasKey_setdefault_self {α : Type} (d : PyDict α) (k : PyStr) (v : α) :
    hasKey (setdefault d k v) k = true := by
  induction d with
  | nil => simp [setdefault, hasKey, dictGet]
  | cons p rest ih =>
      rw [setdefault]
      by_cases hpk : p.1 = k
      · rw [if_pos hpk]
        simp [hasKey, dictGet, hpk]
      · rw [if_neg hpk]
        simpa [hasKey, dictGet, hpk] using ih

/-- `setdefault` does not touch other keys. -/
theorem dictGet_setdefault_other {α : Type} (d : PyDict α) (kp k : PyStr)
    (v : α) (h : kp ≠ k) : dictGet (setdefault d kp v) k = dictGet d k := by
  induction d with
  | nil => simp [setdefault, dictGet, h]
  | cons p rest ih =>
      rw [setdefault]
      by_cases hpk : p.1 = kp
      · rw [if_pos hpk]
      · rw [if_neg hpk, dictGet, dictGet, ih]

/-- `setdefault` installs the default when the key is absent. -/
theorem dictGet_setdefault_absent {α : Type} (d : PyDict α) (k : PyStr)
    (v : α) (h : hasKey d k = false) :
    dictGet (setdefault d k v) k = some v := by
  induction d with
  | nil => simp [setdefault, dictGet]
  | cons p rest ih =>
      rw [hasKey, dictGet] at h
      by_cases hpk : p.1 = k
      · rw [if_pos hpk] at h
        simp at h
      · rw [if_neg hpk] at h
        rw [setdefault, if_neg hpk, dictGet, if_neg hpk]
        exact ih h

/-- Filtering by a predicate that keeps key `k` preserves its lookup. -/
theorem dictGet_filter {α : Type} (d : PyDict α) (q : PyStr × α → Bool)
    (k : PyStr) (h : ∀ v, q (k, v) = true) :
    dictGet (d.filter q) k = dictGet d k := by
  induction d with
  | nil => rfl
  | cons p rest ih =>
      rw [List.filter_cons]
      by_cases hpk : p.1 = k
      · have hq : q p = true := by
          have hp : p = (k, p.2) := by
            cases p
            simp_all
          rw [hp]
          exact h p.2
        rw [if_pos hq, dictGet, dictGet, if_pos hpk, if_pos hpk]
      · by_cases hq : q p = true
        · rw [if_pos hq, dictGet, dictGet, if_neg hpk, if_neg hpk, ih]
        · rw [if_neg hq, ih, dictGet, if_neg hpk]

/-! ### Constructing from a single keyword argument -/

/-- A one-required-parameter constructor applied to exactly its field. -/
theorem initOneField_single (field : PyStr) (mk : PyStr → Bool → Pusher)
    (v : PyStr) (hsm : field ≠ str "show_message") :
    initOneField field mk [(field, v)] = .ok (mk v true) := by
  rw [initOneField]
  have hfind : List.find?
      (fun p => !(p.1 = field || p.1 = str "show_message")) [(field, v)] = none := by
    simp
  rw [hfind]
  have hget : dictGet [(field, v)] field = some v := by
    simp [dictGet]
  rw [hget]
  have hshow : showOf [(field, v)] = true := by
    simp [showOf, dictGet, hsm]
  rw [hshow]

/-- Decoding a canonical one-parameter URI built by `format_uri` recovers
the pusher, for any registered name and safe key. -/
theorem get_pusher_format_uri (name key : PyStr) (c : PClass)
    (mk : PyStr → Bool → Pusher)
    (h1 : ∀ b ∈ name, isNetlocEnd b = false)
    (h2 : pyLower name = name)
    (h3 : dictGet initialPushers name = some c)
    (h4 : PClass.init c = initOneField key mk)
    (h5 : quote_plus key = key)
    (h6 : unquote_plus key = key)
    (h7 : (38 : Nat) ∉ key)
    (h8 : (61 : Nat) ∉ key)
    (h9 : (35 : Nat) ∉ key)
    (hsm : key ≠ str "show_message")
    (v : PyStr) (hv : v ≠ []) (hv256 : ∀ b ∈ v, b < 256) :
    get_pusher initialPushers (format_uri name [(key, v)]) = .ok (mk v true) := by
  have hq35 : (35 : Nat) ∉ quote_plus key ++ 61 :: quote_plus v := by
    rw [h5]
    simp only [List.mem_append, List.mem_cons]
    push_neg
    exact ⟨h9, by omega, (quote_plus_no_sep v hv256).2⟩
  have hparse := urlparse_canonical name (quote_plus key ++ 61 :: quote_plus v) h1 hq35
  have huri : format_uri name [(key, v)]
      = str "knotify://" ++ name ++ 63 :: (quote_plus key ++ 61 :: quote_plus v) := rfl
  have hpq : parse_qsl (quote_plus key ++ 61 :: quote_plus v) = [(key, v)] := by
    rw [h5, parse_qsl_single key (quote_plus v) h7 h8
      (quote_plus_no_sep v hv256).1 (quote_plus_ne_nil v hv),
      h6, unquote_quote_plus v hv256]
  rw [get_pusher, huri, hparse]
  dsimp only
  rw [if_neg (by simp), h2, h3]
  dsimp only
  rw [hpq]
  have hsingle : pyDict [(key, v)] = [(key, v)] := rfl
  rw [hsingle, h4, initOneField_single key mk v hsm]

/-! ### Claim theorems -/

/-- C1, counterexample: the empty string is accepted by every backend
constructor, but its encoded URI `knotify://webhook?url=` has an
empty-valued query field, which `parse_qsl` drops, so decoding fails
instead of returning a notifier with the same identity fields. -/
theorem decode_encode_empty_identity_fails :
    get_pusher initialPushers ((Pusher.webhook (str "") true).uri)
      = .error (.wrapped (.missingArgument (str "url"))) := rfl

/-- C1 (amended): for every registered backend type and every parameter set
whose identity-field value is a non-empty string, decoding the encoded URI
yields a notifier with the same identity field (and the default
`show_message`). -/
theorem decode_encode_roundtrip (c : PClass) (v : PyStr) (sm : Bool)
    (hc : c ∈ [PClass.webhook, PClass.telegram, PClass.wechat, PClass.wirepusher])
    (hv : v ≠ []) (hv256 : ∀ b ∈ v, b < 256) :
    get_pusher initialPushers (mkPusher c v sm).uri = .ok (mkPusher c v true) := by
  simp only [List.mem_cons, List.mem_singleton] at hc
  rcases hc with rfl | rfl | rfl | rfl | h
  · exact get_pusher_format_uri (str "webhook") (str "url") .webhook Pusher.webhook
      (by decide) (by decide) (by decide) rfl (by decide) (by decide) (by decide)
      (by decide) (by decide) (by decide) v hv hv256
  · exact get_pusher_format_uri (str "telegram") (str "token") .telegram Pusher.telegram
      (by decide) (by decide) (by decide) rfl (by decide) (by decide) (by decide)
      (by decide) (by decide) (by decide) v hv hv256
  · exact get_pusher_format_uri (str "wechat") (str "sckey") .wechat Pusher.wechat
      (by decide) (by decide) (by decide) rfl (by decide) (by decide) (by decide)
      (by decide) (by decide) (by decide) v hv hv256
  · exact get_pusher_format_uri (str "wirepusher") (str "pid") .wirepusher Pusher.wirepusher
      (by decide) (by decide) (by decide) rfl (by decide) (by decide) (by decide)
      (by decide) (by decide) (by decide) v hv hv256
  · cases h

/-- C1, witness: the roundtrip at a concrete Telegram pusher. -/
theorem decode_encode_roundtrip_instance :
    get_pusher initialPushers ((Pusher.telegram (str "secret token/1") false).uri)
      = .ok (.telegram (str "secret token/1") true) :=
  decode_encode_roundtrip PClass.telegram (str "secret token/1") false
    (by decide) (by decide) (by decide)

/-- C3: whatever the registry holds, a URI whose parsed scheme is not the
literal `knotify` makes `get_pusher` raise the invalid-scheme error. -/
theorem get_pusher_wrong_scheme (reg : Registry) (uri : PyStr)
    (h : (urlparse uri).scheme ≠ str "knotify") :
    get_pusher reg uri = .error .invalidScheme := by
  rw [get_pusher, if_pos h]

/-- C3, witness: `wrongscheme://webhook?url=hook` is rejected even though
`webhook` is registered. -/
theorem get_pusher_wrong_scheme_instance :
    (urlparse (str "wrongscheme://webhook?url=hook")).scheme ≠ str "knotify"
      ∧ get_pusher initialPushers (str "wrongscheme://webhook?url=hook")
          = .error .invalidScheme :=
  ⟨by decide, get_pusher_wrong_scheme initialPushers _ (by decide)⟩

/-- C4: with a valid scheme, `get_pusher` raises the unknown-class error
exactly when the lowercased netloc is not a registry key. -/
theorem get_pusher_unknown_backend (reg : Registry) (uri : PyStr)
    (h : (urlparse uri).scheme = str "knotify") :
    get_pusher reg uri = .error (.invalidClassName (urlparse uri).netloc)
      ↔ dictGet reg (pyLower (urlparse uri).netloc) = none := by
  rw [get_pusher, if_neg (by simp [h])]
  cases hreg : dictGet reg (pyLower (urlparse uri).netloc) with
  | none => simp
  | some cls =>
      cases hinit : cls.init (pyDict (parse_qsl (urlparse uri).query)) with
      | ok p => simp [hinit]
      | error e => simp [hinit]

/-- C4, witness: `knotify://nonexistent?x=1` fails with the unknown-class
error against the initial registry. -/
theorem get_pusher_unknown_backend_instance :
    get_pusher initialPushers (str "knotify://nonexistent?x=1")
      = .error (.invalidClassName (str "nonexistent")) :=
  (get_pusher_unknown_backend initialPushers
    (str "knotify://nonexistent?x=1") (by decide)).mpr (by decide)

/-- A byte that lowercases into the scheme literal is a letter. -/
theorem isAlphaB_of_lower_knotify (b : Nat)
    (h : lowerByte b ∈ str "knotify") : isAlphaB b = true := by
  have hd : lowerByte b = 107 ∨ lowerByte b = 110 ∨ lowerByte b = 111
      ∨ lowerByte b = 116 ∨ lowerByte b = 105 ∨ lowerByte b = 102
      ∨ lowerByte b = 121 := by
    simpa [str] using h
  simp only [isAlphaB, isUpperB, isLowerB, Bool.or_eq_true, Bool.and_eq_true,
    decide_eq_true_eq]
  by_cases hub : isUpperB b = true
  · have hb2 : b + 32 = 107 ∨ b + 32 = 110 ∨ b + 32 = 111 ∨ b + 32 = 116
        ∨ b + 32 = 105 ∨ b + 32 = 102 ∨ b + 32 = 121 := by
      simpa [lowerByte, hub] using hd
    simp only [isUpperB, Bool.and_eq_true, decide_eq_true_eq] at hub
    omega
  · have hb2 : b = 107 ∨ b = 110 ∨ b = 111 ∨ b = 116 ∨ b = 105 ∨ b = 102
        ∨ b = 121 := by
      simpa [lowerByte, hub] using hd
    omega

/-- With a matching parsed scheme, `get_pusher` cannot raise the
invalid-scheme error. -/
theorem get_pusher_ne_invalidScheme (reg : Registry) (uri : PyStr)
    (h : (urlparse uri).scheme = str "knotify") :
    get_pusher reg uri ≠ .error .invalidScheme := by
  rw [get_pusher, if_neg (fun hcon => hcon h)]
  cases hreg : dictGet reg (pyLower (urlparse uri).netloc) with
  | none => simp
  | some cls =>
      cases hinit : cls.init (pyDict (parse_qsl (urlparse uri).query)) with
      | ok p => simp [hinit]
      | error e => simp [hinit]

/-- C10: any letter-casing of the scheme literal is accepted — the parser
lowercases the scheme before `get_pusher` compares it, so no invalid-scheme
error can arise, whatever the registry. -/
theorem get_pusher_scheme_case_insensitive (s rest : PyStr) (reg : Registry)
    (h : pyLower s = str "knotify") :
    (urlparse (s ++ str "://" ++ rest)).scheme = str "knotify"
      ∧ get_pusher reg (s ++ str "://" ++ rest) ≠ .error .invalidScheme := by
  have hmem : ∀ b ∈ s, isAlphaB b = true := by
    intro b hb
    refine isAlphaB_of_lower_knotify b ?_
    rw [← h]
    exact List.mem_map_of_mem lowerByte hb
  have h58 : (58 : Nat) ∉ s := fun hc =>
    absurd (hmem 58 hc) (by decide)
  have hne : s ≠ [] := by
    intro he
    rw [he] at h
    exact absurd h (by decide)
  obtain ⟨b0, s1, rfl⟩ : ∃ b0 s1, s = b0 :: s1 := by
    cases s with
    | nil => exact absurd rfl hne
    | cons a t => exact ⟨a, t, rfl⟩
  have hshape : (b0 :: s1) ++ str "://" ++ rest
      = (b0 :: s1) ++ 58 :: (47 :: 47 :: rest) := by
    rw [List.append_assoc]
    rfl
  have hsplit : splitFirst? 58 ((b0 :: s1) ++ str "://" ++ rest)
      = some (b0 :: s1, 47 :: 47 :: rest) := by
    rw [hshape]
    exact splitFirst?_append 58 _ _ h58
  have hcond : (isAlphaB b0 && (b0 :: s1).all isSchemeChar) = true := by
    rw [Bool.and_eq_true]
    refine ⟨hmem b0 (by simp), ?_⟩
    rw [List.all_eq_true]
    intro x hx
    rw [isSchemeChar, hmem x hx]
    rfl
  have hscheme : schemeSplit ((b0 :: s1) ++ str "://" ++ rest)
      = (str "knotify", 47 :: 47 :: rest) := by
    rw [schemeSplit, hsplit]
    dsimp only
    rw [if_pos hcond, h]
  have hfst : (urlparse ((b0 :: s1) ++ str "://" ++ rest)).scheme
      = str "knotify" := by
    show (schemeSplit ((b0 :: s1) ++ str "://" ++ rest)).1 = str "knotify"
    rw [hscheme]
  exact ⟨hfst, get_pusher_ne_invalidScheme reg _ hfst⟩

/-- C10, witness: `KNOTIFY://telegram?token=x` passes the scheme check. -/
theorem get_pusher_scheme_case_insensitive_instance :
    (urlparse (str "KNOTIFY" ++ str "://" ++ str "telegram?token=x")).scheme
        = str "knotify"
      ∧ get_pusher initialPushers
          (str "KNOTIFY" ++ str "://" ++ str "telegram?token=x")
          ≠ .error .invalidScheme :=
  get_pusher_scheme_case_insensitive (str "KNOTIFY") (str "telegram?token=x")
    initialPushers (by decide)

/-- C5: the query string becomes a flat mapping in which the last occurrence
of a key wins, and `get_pusher` hands exactly that mapping to the looked-up
constructor. -/
theorem get_pusher_query_mapping :
    (∀ (pairs : PyDict PyStr) (k : PyStr),
        dictGet (pyDict pairs) k = dictGet pairs.reverse k)
    ∧ (∀ (reg : Registry) (uri : PyStr) (cls : PClass),
        (urlparse uri).scheme = str "knotify" →
        dictGet reg (pyLower (urlparse uri).netloc) = some cls →
        get_pusher reg uri
          = match cls.init (pyDict (parse_qsl (urlparse uri).query)) with
            | .ok p => .ok p
            | .error e => .error (.wrapped e)) := by
  refine ⟨fun pairs k => dictGet_pyDict pairs k, ?_⟩
  intro reg uri cls h hreg
  rw [get_pusher, if_neg (fun hcon => hcon h), hreg]

/-- C5, witness: with a duplicated `url` key the later value wins. -/
theorem get_pusher_query_mapping_instance :
    get_pusher initialPushers (str "knotify://webhook?url=a&url=b")
      = .ok (.webhook (str "b") true) := by
  rw [get_pusher_query_mapping.2 initialPushers
    (str "knotify://webhook?url=a&url=b") .webhook (by decide) (by decide)]
  rfl

/-- C6: once the scheme and registry checks pass, a constructor failure is
re-raised as a `KnotifyException` wrapping the cause, and a constructor
success is returned as the notifier — `get_pusher` never swallows either. -/
theorem get_pusher_wraps_construction_failure (reg : Registry) (uri : PyStr)
    (cls : PClass) (hs : (urlparse uri).scheme = str "knotify")
    (hreg : dictGet reg (pyLower (urlparse uri).netloc) = some cls) :
    (∀ e, cls.init (pyDict (parse_qsl (urlparse uri).query)) = .error e →
        get_pusher reg uri = .error (.wrapped e))
    ∧ (∀ p, cls.init (pyDict (parse_qsl (urlparse uri).query)) = .ok p →
        get_pusher reg uri = .ok p) := by
  constructor <;> intro x hx <;>
    rw [get_pusher, if_neg (fun hcon => hcon hs), hreg] <;>
    dsimp only <;> rw [hx]

/-- C6, witness: an unexpected keyword argument surfaces as a wrapped
error. -/
theorem get_pusher_wraps_construction_failure_instance :
    get_pusher initialPushers (str "knotify://webhook?token=x")
      = .error (.wrapped (.unexpectedKeyword (str "token"))) :=
  (get_pusher_wraps_construction_failure initialPushers
      (str "knotify://webhook?token=x") .webhook (by decide) (by decide)).1
    (.unexpectedKeyword (str "token")) rfl

/-- C7: registering two classes with the same lowercase type name succeeds
both times, and the registry afterwards maps that name to the later class. -/
theorem register_twice_last_wins (reg : Registry) (c1 c2 : PClass)
    (h : get_cls_name c1 = get_cls_name c2) :
    ∃ reg1 reg2,
      register_pusher (.typeObj c1) reg = .ok reg1
      ∧ register_pusher (.typeObj c2) reg1 = .ok reg2
      ∧ dictGet reg2 (get_cls_name c2) = some c2
      ∧ dictGet reg2 (get_cls_name c1) = some c2 := by
  refine ⟨dictSet reg (get_cls_name c1) c1,
    dictSet (dictSet reg (get_cls_name c1) c1) (get_cls_name c2) c2,
    rfl, rfl, ?_, ?_⟩
  · rw [dictGet_dictSet, if_pos rfl]
  · rw [dictGet_dictSet, if_pos h.symm]

/-- C7, witness: two distinct classes both named `foo` in lowercase. -/
theorem register_twice_last_wins_instance :
    ∃ reg1 reg2,
      register_pusher (.typeObj (.external (str "FOO") true)) initialPushers
          = .ok reg1
      ∧ register_pusher (.typeObj (.external (str "Foo") false)) reg1 = .ok reg2
      ∧ dictGet reg2 (get_cls_name (.external (str "Foo") false))
          = some (.external (str "Foo") false)
      ∧ dictGet reg2 (get_cls_name (.external (str "FOO") true))
          = some (.external (str "Foo") false) :=
  register_twice_last_wins initialPushers (.external (str "FOO") true)
    (.external (str "Foo") false) (by decide)

/-- C2, counterexample: a class that does not subclass `BasePusher` is
registered without any error — `register_pusher` performs no capability
check in its class branch, contradicting "any other argument fails". -/
theorem register_nonconforming_class_accepted :
    register_pusher (.typeObj (.external (str "NotAPusher") false)) initialPushers
      = .ok (initialPushers
          ++ [(str "notapusher", .external (str "NotAPusher") false)]) := rfl

/-- C2 (amended): `register_pusher` accepts any class object, without a
capability check, and any instance of a `BasePusher` subclass — in both
cases registering the class under its lowercase name — while an instance of
a non-`BasePusher` class fails with the `KnotifyException`-family
invalid-registration error. -/
theorem register_pusher_cases (c : PClass) (reg : Registry) :
    (∃ r, register_pusher (.typeObj c) reg = .ok r
        ∧ dictGet r (get_cls_name c) = some c)
    ∧ (c.isBasePusher = true →
        ∃ r, register_pusher (.instanceObj c) reg = .ok r
          ∧ dictGet r (get_cls_name c) = some c)
    ∧ (c.isBasePusher = false →
        register_pusher (.instanceObj c) reg
          = .error (.invalidPusherType c.clsName)) := by
  refine ⟨⟨dictSet reg (get_cls_name c) c, rfl, ?_⟩, ?_, ?_⟩
  · rw [dictGet_dictSet, if_pos rfl]
  · intro hb
    refine ⟨dictSet reg (get_cls_name c) c, ?_, ?_⟩
    · rw [register_pusher, if_pos hb]
    · rw [dictGet_dictSet, if_pos rfl]
  · intro hb
    rw [register_pusher, if_neg (by rw [hb]; exact Bool.false_ne_true)]

/-- C2, witness: a conforming class registers and resolves; a non-conforming
instance is rejected. -/
theorem register_pusher_cases_instance :
    (∃ r, register_pusher (.typeObj .wirepusher) initialPushers = .ok r
        ∧ dictGet r (str "wirepusher") = some .wirepusher)
    ∧ register_pusher (.instanceObj (.external (str "Foo") false)) initialPushers
        = .error (.invalidPusherType (str "Foo")) :=
  ⟨(register_pusher_cases .wirepusher initialPushers).1,
   (register_pusher_cases (.external (str "Foo") false) initialPushers).2.2 rfl⟩

/-- An absent key looks up to nothing. -/
theorem dictGet_eq_none_of_hasKey_false {α : Type} (d : PyDict α) (k : PyStr)
    (h : hasKey d k = false) : dictGet d k = none := by
  rw [hasKey] at h
  cases hd : dictGet d k with
  | none => rfl
  | some v => rw [hd] at h; simp at h

/-- `setdefault` keeps other keys present or absent as they were. -/
theorem hasKey_setdefault_other {α : Type} (d : PyDict α) (kp k : PyStr)
    (v : α) (h : kp ≠ k) : hasKey (setdefault d kp v) k = hasKey d k := by
  rw [hasKey, dictGet_setdefault_other d kp k v h, hasKey]

/-- C8, counterexample: an extra field named `text` overrides the message in
the Telegram body — the body's `text` is not the pushed message. -/
theorem telegram_text_overridden_by_extra :
    dictGet (Telegram.push_ (str "tk") (str "hello")
        [(str "text", str "bye")]).jsonBody (str "text") ≠ some (str "hello")
    ∧ dictGet (Telegram.push_ (str "tk") (str "hello")
        [(str "text", str "bye")]).jsonBody (str "text") = some (str "bye") :=
  ⟨by decide, rfl⟩

/-- C8 (amended): the Telegram backend POSTs to the fixed endpoint with its
token substituted, with a JSON body in which `text` defaults to the message
and `parse_mode` defaults to `Markdown`, and the extra fields are merged in,
overriding those defaults on key collision. -/
theorem telegram_push_shape (token msg : PyStr) (kwargs : PyDict PyStr) :
    (Telegram.push_ token msg kwargs).isPost = true
    ∧ (Telegram.push_ token msg kwargs).url
        = str "https://tgbot.lbyczf.com/sendMessage/" ++ token
    ∧ (hasKey kwargs (str "text") = false →
        dictGet (Telegram.push_ token msg kwargs).jsonBody (str "text") = some msg)
    ∧ (hasKey kwargs (str "parse_mode") = false →
        dictGet (Telegram.push_ token msg kwargs).jsonBody (str "parse_mode")
          = some (str "Markdown"))
    ∧ (∀ k v, dictGet kwargs.reverse k = some v →
        dictGet (Telegram.push_ token msg kwargs).jsonBody k = some v) := by
  have hbody : (Telegram.push_ token msg kwargs).jsonBody
      = dictUpdate [(str "text", msg), (str "parse_mode", str "Markdown")]
          kwargs := rfl
  refine ⟨rfl, rfl, ?_, ?_, ?_⟩
  · intro h
    rw [hbody, dictGet_dictUpdate, dictGet_reverse_none kwargs _
      (dictGet_eq_none_of_hasKey_false _ _ h), Option.none_or, dictGet]
    dsimp only
    rw [if_pos rfl]
  · intro h
    rw [hbody, dictGet_dictUpdate, dictGet_reverse_none kwargs _
      (dictGet_eq_none_of_hasKey_false _ _ h), Option.none_or, dictGet]
    dsimp only
    rw [if_neg (by decide), dictGet]
    dsimp only
    rw [if_pos rfl]
  · intro k v h
    rw [hbody, dictGet_dictUpdate, h]
    rfl

/-- C8, witness: defaults and merged extras at a concrete push. -/
theorem telegram_push_shape_instance :
    dictGet (Telegram.push_ (str "tk") (str "hi")
        [(str "chat_id", str "7")]).jsonBody (str "text") = some (str "hi")
    ∧ dictGet (Telegram.push_ (str "tk") (str "hi")
        [(str "chat_id", str "7")]).jsonBody (str "chat_id") = some (str "7") :=
  ⟨(telegram_push_shape (str "tk") (str "hi")
      [(str "chat_id", str "7")]).2.2.1 (by decide),
   (telegram_push_shape (str "tk") (str "hi")
      [(str "chat_id", str "7")]).2.2.2.2 (str "chat_id") (str "7") (by decide)⟩

/-- C9: a WirePusher push always builds its request, with `title` defaulting
to the fixed literal when absent from the extras and `id` defaulting to the
configured device id when absent. -/
theorem wirepusher_push_defaults (pid msg : PyStr) (kwargs : PyDict PyStr) :
    ∃ req, WirePusher.push_ pid msg kwargs = .ok req
      ∧ (hasKey kwargs (str "title") = false →
          dictGet req.params (str "title") = some (str "Knotify Message"))
      ∧ (hasKey kwargs (str "id") = false →
          dictGet req.params (str "id") = some pid) := by
  have hm : mergeDefaults
      (setdefault (setdefault kwargs (str "id") pid) (str "title")
        (str "Knotify Message")) [(str "message", msg)]
      = setdefault (setdefault (setdefault kwargs (str "id") pid)
          (str "title") (str "Knotify Message")) (str "message") msg := rfl
  have hkid : hasKey (setdefault (setdefault (setdefault kwargs (str "id") pid)
      (str "title") (str "Knotify Message")) (str "message") msg)
      (str "id") = true := by
    rw [hasKey_setdefault_other _ _ _ _ (by decide : str "message" ≠ str "id"),
      hasKey_setdefault_other _ _ _ _ (by decide : str "title" ≠ str "id")]
    exact hasKey_setdefault_self kwargs (str "id") pid
  have hktitle : hasKey (setdefault (setdefault (setdefault kwargs (str "id") pid)
      (str "title") (str "Knotify Message")) (str "message") msg)
      (str "title") = true := by
    rw [hasKey_setdefault_other _ _ _ _ (by decide : str "message" ≠ str "title")]
    exact hasKey_setdefault_self _ (str "title") _
  have hkmsg : hasKey (setdefault (setdefault (setdefault kwargs (str "id") pid)
      (str "title") (str "Knotify Message")) (str "message") msg)
      (str "message") = true := hasKey_setdefault_self _ _ _
  have hfind : WirePusher.mandatory.find? (fun m => !hasKey (mergeDefaults
      (setdefault (setdefault kwargs (str "id") pid) (str "title")
        (str "Knotify Message")) [(str "message", msg)]) m) = none := by
    simp only [hm]
    rw [show WirePusher.mandatory = [str "id", str "title", str "message"] from rfl]
    simp [List.find?, hkid, hktitle, hkmsg]
  have hpush : WirePusher.push_ pid msg kwargs
      = .ok ⟨false, str "https://wirepusher.com/send",
          (mergeDefaults (setdefault (setdefault kwargs (str "id") pid)
              (str "title") (str "Knotify Message")) [(str "message", msg)]).filter
            (fun p => WirePusher.args.contains p.1), []⟩ := by
    rw [WirePusher.push_, build_body, hfind]
  refine ⟨_, hpush, ?_, ?_⟩
  · intro h
    show dictGet ((mergeDefaults (setdefault (setdefault kwargs (str "id") pid)
        (str "title") (str "Knotify Message")) [(str "message", msg)]).filter
          (fun p => WirePusher.args.contains p.1)) (str "title")
      = some (str "Knotify Message")
    rw [dictGet_filter _ _ _
        (fun v => show WirePusher.args.contains (str "title") = true by decide),
      hm,
      dictGet_setdefault_other _ _ _ _ (by decide : str "message" ≠ str "title")]
    rw [dictGet_setdefault_absent]
    rw [hasKey_setdefault_other _ _ _ _ (by decide : str "id" ≠ str "title")]
    exact h
  · intro h
    show dictGet ((mergeDefaults (setdefault (setdefault kwargs (str "id") pid)
        (str "title") (str "Knotify Message")) [(str "message", msg)]).filter
          (fun p => WirePusher.args.contains p.1)) (str "id")
      = some pid
    rw [dictGet_filter _ _ _
        (fun v => show WirePusher.args.contains (str "id") = true by decide),
      hm,
      dictGet_setdefault_other _ _ _ _ (by decide : str "message" ≠ str "id"),
      dictGet_setdefault_other _ _ _ _ (by decide : str "title" ≠ str "id")]
    rw [dictGet_setdefault_absent]
    exact h

/-- C9, witness: with no extras, `title` and `id` take their defaults. -/
theorem wirepusher_push_defaults_instance :
    ∃ req, WirePusher.push_ (str "dev") (str "m") [] = .ok req
      ∧ dictGet req.params (str "title") = some (str "Knotify Message")
      ∧ dictGet req.params (str "id") = some (str "dev") := by
  obtain ⟨req, h1, h2, h3⟩ := wirepusher_push_defaults (str "dev") (str "m") []
  exact ⟨req, h1, h2 (by decide), h3 (by decide)⟩

end Knotify
